import Mathlib

/-!
Verification of the deployment orchestration logic of the
mautic-do-action repository (TypeScript sources under scripts/).

The development shallowly embeds the functions of
scripts/docker-manager.ts, scripts/mautic-deployer.ts and scripts/setup.ts.
Remote shell execution is abstracted as an environment that maps each
command string to an outcome; the ProcessManager command runner itself
(process-manager.ts, not part of the sources) is modelled from the spec
where its behaviour matters.
-/

namespace MauticDeploy

/-! ## JavaScript string primitives

The TypeScript code uses `String.prototype.split` with a one-character
separator, `String.prototype.endsWith`, and `String.prototype.replace`
with a plain-string pattern (which replaces only the first occurrence).
These are embedded here on `List Char` so that they can be reasoned
about by structural induction.
-/

/-- Core of a one-character split: returns the current (first) segment
and the list of the remaining segments. -/
def splitCore (sep : Char) : List Char → List Char × List (List Char)
  | [] => ([], [])
  | c :: cs =>
    let r := splitCore sep cs
    if c = sep then ([], r.1 :: r.2)
    else (c :: r.1, r.2)

/-- JavaScript `s.split(sep)` for a single-character separator. -/
def jsSplit (sep : Char) (s : String) : List String :=
  let r := splitCore sep s.data
  (r.1 :: r.2).map String.mk

/-- JavaScript `s.endsWith(suffix)`. -/
def jsEndsWith (s suffix : String) : Bool :=
  decide (suffix.data <:+ s.data)

/-- Helper for `jsRemoveFirstChar`: drops the first occurrence of a
character from a character list. -/
def removeFirstCharAux (pat : Char) : List Char → List Char
  | [] => []
  | c :: cs => if c = pat then cs else c :: removeFirstCharAux pat cs

/-- JavaScript `s.replace(pat, "")` for a one-character plain-string
pattern: removes only the first occurrence of `pat`. -/
def jsRemoveFirstChar (pat : Char) (s : String) : String :=
  String.mk (removeFirstCharAux pat s.data)

/-- Truthiness of an optional (possibly empty) JavaScript string:
`undefined` and the empty string are falsy. -/
def jsTruthy : Option String → Bool
  | none => false
  | some s => s != ""

example : jsSplit ':' "a:b:c" = ["a", "b", "c"] := by decide
example : jsSplit ':' "abc" = ["abc"] := by decide
example : jsSplit ':' "::" = ["", "", ""] := by decide
example : jsEndsWith "5.2.1-apache" "-apache" = true := by decide
example : jsEndsWith "5.2.1" "-apache" = false := by decide
example : jsRemoveFirstChar '/' "/mautic_db" = "mautic_db" := by decide

/-! ## Data model (scripts/types.ts) -/

/-- Result of one command execution (interface ProcessResult). -/
structure ProcessResult where
  success : Bool
  output : String
  exitCode : Int
deriving DecidableEq, Repr

/-- Observed snapshot of one container (interface ContainerInfo);
`health = none` embeds the TypeScript `undefined`. -/
structure ContainerInfo where
  name : String
  image : String
  status : String
  health : Option String
deriving DecidableEq, Repr

/-- Immutable deployment input (interface DeploymentConfig); optional
fields are embedded as `Option String`. -/
structure DeploymentConfig where
  emailAddress : String
  mauticPassword : String
  ipAddress : String
  port : String
  mauticVersion : String
  mauticThemes : Option String
  mauticPlugins : Option String
  mysqlDatabase : String
  mysqlUser : String
  mysqlPassword : String
  mysqlRootPassword : String
  domainName : Option String
deriving DecidableEq, Repr

/-! ## Command runner model -/

/-- Outcome of handing one shell command to the operating system: either
a completed process or an execution error (spawn failure, unreachable
daemon, rejection). -/
inductive CmdOutcome where
  | ok (r : ProcessResult)
  | err
deriving DecidableEq, Repr

/-- An environment assigns every command string its outcome. -/
def ShellEnv : Type := String → CmdOutcome

/-- Modelled from the spec: ProcessManager.runShell with
`ignoreError: true` (process-manager.ts is not among the sources).
Spec section 2 describes the command runner as returning exit code plus
combined output with an optional ignore-failure mode, section 7 requires
probe errors to be treated as negative results rather than raised, and
test.ts asserts that a failing command yields `success: false` instead
of an exception. An erroring command is therefore embedded as a
ProcessResult with `success := false`. -/
def runShellIgnore (env : ShellEnv) (cmd : String) : ProcessResult :=
  match env cmd with
  | CmdOutcome.ok r => r
  | CmdOutcome.err => { success := false, output := "", exitCode := 1 }

/-! ## Container orchestration adapter (scripts/docker-manager.ts) -/

/-- Shell command issued by DockerManager.getContainerInfo; the
`--format` template is written with `\x7b`/`\x7d` for the literal
braces and `\x27`/`\x22` for the quotes. -/
def inspectCmd (containerName : String) : String :=
  "docker inspect " ++ containerName ++
    " --format \x27\x7b\x7b.Name\x7d\x7d,\x7b\x7b.Config.Image\x7d\x7d,\x7b\x7b.State.Status\x7d\x7d,\x7b\x7b.State.Health.Status\x7d\x7d\x27 2>/dev/null || echo \x22not_found\x22"

/-- Parsing part of DockerManager.getContainerInfo: turns the inspect
command result into a ContainerInfo. Mirrors the source line by line:
a failed command or the literal output `not_found` gives `null`;
otherwise the output is split on commas, missing fields default to the
empty string, the leading slash is removed from the name (JavaScript
replace removes only the first occurrence), and a falsy or `<no value>`
health field becomes `undefined`. -/
def getContainerInfo (res : ProcessResult) : Option ContainerInfo :=
  if !res.success || res.output == "not_found" then none
  else
    let parts := jsSplit ',' res.output
    let name := parts.getD 0 ""
    let image := parts.getD 1 ""
    let status := parts.getD 2 ""
    let healthRaw := parts.getD 3 ""
    some { name := jsRemoveFirstChar '/' name
         , image := image
         , status := status
         , health := if healthRaw == "" || healthRaw == "<no value>" then none
                     else some healthRaw }

/-- DockerManager.getContainerInfo run against a shell environment. -/
def getContainerInfoEnv (env : ShellEnv) (containerName : String) : Option ContainerInfo :=
  getContainerInfo (runShellIgnore env (inspectCmd containerName))

/-- DockerManager.listMauticContainers: inspects the three managed
containers and keeps those that exist. -/
def listMauticContainers (env : ShellEnv) : List ContainerInfo :=
  ["mautic_web", "mautic_db", "mautic_cron"].filterMap (getContainerInfoEnv env)

/-- Tag extraction inside DockerManager.getCurrentMauticVersion:
`webContainer.image.split(':')[1]` followed by `imageTag || null`
(a missing or empty element becomes `null`). -/
def extractImageTag (image : String) : Option String :=
  let imageTag := (jsSplit ':' image).getD 1 ""
  if imageTag == "" then none else some imageTag

/-- DockerManager.getCurrentMauticVersion as a function of the observed
web container. -/
def getCurrentMauticVersionOf (webContainer : Option ContainerInfo) : Option String :=
  match webContainer with
  | none => none
  | some c => extractImageTag c.image

/-- DockerManager.getCurrentMauticVersion run against a shell
environment. -/
def getCurrentMauticVersion (env : ShellEnv) : Option String :=
  getCurrentMauticVersionOf (getContainerInfoEnv env "mautic_web")

/-- Health criterion inside the DockerManager.waitForHealthy loop body:
`info?.status === 'running' && (!info.health || info.health === 'healthy')`.
A falsy health field (absent per the JavaScript truthiness of an
undefined or empty string) or the literal verdict `healthy` counts as
healthy once the container is running. -/
def containerIsHealthyNow (info : ContainerInfo) : Bool :=
  info.status == "running" && (!jsTruthy info.health || info.health == some "healthy")

/-- Number of loop iterations of `for (i = 0; i < t; i += 15)`: one poll
per started 15-second interval. -/
def pollCount (timeoutSeconds : Nat) : Nat :=
  (timeoutSeconds + 14) / 15

/-- Body of one poll of the DockerManager.waitForHealthy loop: inspect
the container and apply the health criterion; a missing container
(`info?.` short-circuiting on null) is not healthy. -/
def healthyObservation (r : ProcessResult) : Bool :=
  match getContainerInfo r with
  | some info => containerIsHealthyNow info
  | none => false

/-- Loop of DockerManager.waitForHealthy: `inspectAt k` is the inspect
command result observed at the k-th poll, and the second argument is the
number of polls that remain within the timeout budget. The best-effort
diagnostic logging inside the loop performs no state change and is
omitted. -/
def waitForHealthyAux (inspectAt : Nat → ProcessResult) : Nat → Nat → Bool
  | _, 0 => false
  | k, n + 1 =>
    if healthyObservation (inspectAt k) then true
    else waitForHealthyAux inspectAt (k + 1) n

/-- DockerManager.waitForHealthy over a time-varying inspect
environment. -/
def waitForHealthy (inspectAt : Nat → ProcessResult) (timeoutSeconds : Nat) : Bool :=
  waitForHealthyAux inspectAt 0 (pollCount timeoutSeconds)

/-! ## Installation state detector (scripts/mautic-deployer.ts, probes) -/

/-- Command of MauticDeployer.checkDockerCompose. -/
def checkComposeCmd : String := "test -f docker-compose.yml"

/-- Command of MauticDeployer.checkMauticDirectories. -/
def checkDirsCmd : String := "test -d mautic_data && test -d mysql_data"

/-- Command of MauticDeployer.checkConfigFiles. -/
def checkConfigCmd : String := "test -f .mautic_env"

/-- MauticDeployer.checkDockerCompose: the probe passes when the test
command succeeds. -/
def checkDockerCompose (env : ShellEnv) : Bool :=
  (runShellIgnore env checkComposeCmd).success

/-- MauticDeployer.checkMauticDirectories. -/
def checkMauticDirectories (env : ShellEnv) : Bool :=
  (runShellIgnore env checkDirsCmd).success

/-- MauticDeployer.checkDatabase: passes when the listed containers
include one named mautic_db whose status is running. -/
def checkDatabase (env : ShellEnv) : Bool :=
  match (listMauticContainers env).find? (fun c => c.name == "mautic_db") with
  | some dbContainer => dbContainer.status == "running"
  | none => false

/-- MauticDeployer.checkConfigFiles. -/
def checkConfigFiles (env : ShellEnv) : Bool :=
  (runShellIgnore env checkConfigCmd).success

/-- MauticDeployer.isInstalled: runs the four probes, counts how many
pass, and classifies the target as installed when at least 3 of 4
pass. -/
def isInstalled (env : ShellEnv) : Bool :=
  let results := [checkDockerCompose env, checkMauticDirectories env,
                  checkDatabase env, checkConfigFiles env]
  let passedChecks := (results.filter (fun b => b)).length
  decide (3 ≤ passedChecks)

/-- MauticDeployer.needsUpdate: an absent current version or a version
different from the configured one requires an update. -/
def needsUpdate (env : ShellEnv) (config : DeploymentConfig) : Bool :=
  match getCurrentMauticVersion env with
  | none => true
  | some currentVersion => currentVersion != config.mauticVersion

/-! ## Version-tag normalization

The expression
`version.endsWith('-apache') ? version : version + '-apache'`
appears verbatim at three places of scripts/mautic-deployer.ts; each
occurrence is embedded as its own definition so that their agreement is
a theorem rather than a shared abbreviation.
-/

/-- baseVersion computed in MauticDeployer.performUpdate (lines
104-106), used for the image pull. -/
def performUpdateBaseVersion (version : String) : String :=
  if jsEndsWith version "-apache" then version else version ++ "-apache"

/-- baseVersion computed in MauticDeployer.updateDockerComposeVersion
(lines 150-152), used to rewrite the compose manifest image tags. -/
def composeRewriteBaseVersion (version : String) : String :=
  if jsEndsWith version "-apache" then version else version ++ "-apache"

/-- MAUTIC_VERSION value computed in
MauticDeployer.createEnvironmentFile (line 304). -/
def envFileMauticVersion (version : String) : String :=
  if jsEndsWith version "-apache" then version else version ++ "-apache"

/-- Image reference pulled by MauticDeployer.performUpdate. -/
def performUpdateImageName (config : DeploymentConfig) : String :=
  "mautic/mautic:" ++ performUpdateBaseVersion config.mauticVersion

/-! ## Site URLs -/

/-- siteUrl computed in MauticDeployer.runMauticInstallation (lines
956-958): `https://domain` when a domain is configured (truthy), else
`http://ip:port`. -/
def runMauticInstallationSiteUrl (config : DeploymentConfig) : String :=
  if jsTruthy config.domainName then "https://" ++ config.domainName.getD ""
  else "http://" ++ config.ipAddress ++ ":" ++ config.port

/-- baseUrl computed in the main function of scripts/setup.ts (lines
127-129) for the final connectivity verification: `http://domain` when a
domain is configured (truthy), else `http://ip:port`. -/
def setupMainBaseUrl (config : DeploymentConfig) : String :=
  if jsTruthy config.domainName then "http://" ++ config.domainName.getD ""
  else "http://" ++ config.ipAddress ++ ":" ++ config.port

/-! ## Upgrade procedure (MauticDeployer.performUpdate)

The procedure is embedded as a function from the outcomes of its
collaborator calls to the pair (returned success flag, ordered trace of
the collaborator calls it performed). A thrown error that is caught by
the surrounding try/catch and turned into `return false` is embedded as
an early return with the trace accumulated so far.
-/

/-- Collaborator calls performed by MauticDeployer.performUpdate, in
source order. All container stop/remove/start activity happens inside
the single recreateContainers call. -/
inductive UpdateStep where
  | pullImage (image : String)
  | updateComposeVersion
  | recreateContainers
  | waitForHealthyWeb
  | waitForHealthyDb
  | clearCache
deriving DecidableEq, Repr

/-- Outcomes of the collaborator calls available to
MauticDeployer.performUpdate. -/
structure UpdateEnv where
  pullSuccess : Bool
  composeRewriteSuccess : Bool
  recreateSuccess : Bool
  healthyWeb : Bool
  healthyDb : Bool
deriving DecidableEq, Repr

/-- MauticDeployer.performUpdate: pull the normalized image (throw on
failure), rewrite the compose manifest (updateDockerComposeVersion
throws when the file operations fail), recreate the containers (throw
on failure), wait for web and db health (throw when either is false),
then clear the cache best-effort. Every throw is caught by the
enclosing try/catch and yields `false`. -/
def performUpdate (config : DeploymentConfig) (env : UpdateEnv) :
    Bool × List UpdateStep :=
  let t0 := [UpdateStep.pullImage (performUpdateImageName config)]
  if !env.pullSuccess then (false, t0)
  else
    let t1 := t0 ++ [UpdateStep.updateComposeVersion]
    if !env.composeRewriteSuccess then (false, t1)
    else
      let t2 := t1 ++ [UpdateStep.recreateContainers]
      if !env.recreateSuccess then (false, t2)
      else
        let t3 := t2 ++ [UpdateStep.waitForHealthyWeb, UpdateStep.waitForHealthyDb]
        if !env.healthyWeb || !env.healthyDb then (false, t3)
        else (true, t3 ++ [UpdateStep.clearCache])

/-! ## Fresh-install procedure (MauticDeployer.performInstallation) -/

/-- Collaborator calls performed by MauticDeployer.performInstallation,
in source order (read-only debug commands are omitted). -/
inductive InstallStep where
  | createDataDirectories
  | createEnvironmentFile
  | createDockerCompose
  | recreateContainers
  | waitForHealthyDb
  | waitForHealthyWeb
  | runMauticInstallation
  | clearCache
  | installThemesAndPlugins
deriving DecidableEq, Repr

/-- Outcomes of the collaborator calls available to
MauticDeployer.performInstallation. The fields healthyDb and healthyWeb
record what the two waitForHealthy calls return; as in the source, the
procedure body never consults them. -/
structure InstallEnv where
  envFileWriteSuccess : Bool
  composeTemplatePresent : Bool
  recreateSuccess : Bool
  healthyDb : Bool
  healthyWeb : Bool
  installerSuccess : Bool
deriving DecidableEq, Repr

/-- MauticDeployer.performInstallation: create the data directories,
write the environment file (Deno file operations throw on failure),
verify the compose template is present (createDockerCompose throws when
it is missing), recreate the containers (throw on failure), call
waitForHealthy for mautic_db (180s) and mautic_web (300s) discarding
both results exactly as the source does, run the embedded installer
(runMauticInstallation throws on failure), clear the cache, and install
themes/plugins followed by another cache clear when either extension
list is configured. Every throw is caught by the enclosing try/catch
and yields `false`. -/
def performInstallation (config : DeploymentConfig) (env : InstallEnv) :
    Bool × List InstallStep :=
  let t0 := [InstallStep.createDataDirectories, InstallStep.createEnvironmentFile]
  if !env.envFileWriteSuccess then (false, t0)
  else
    let t1 := t0 ++ [InstallStep.createDockerCompose]
    if !env.composeTemplatePresent then (false, t1)
    else
      let t2 := t1 ++ [InstallStep.recreateContainers]
      if !env.recreateSuccess then (false, t2)
      else
        let t3 := t2 ++ [InstallStep.waitForHealthyDb, InstallStep.waitForHealthyWeb,
                         InstallStep.runMauticInstallation]
        if !env.installerSuccess then (false, t3)
        else
          let t4 := t3 ++ [InstallStep.clearCache]
          if jsTruthy config.mauticThemes || jsTruthy config.mauticPlugins then
            (true, t4 ++ [InstallStep.installThemesAndPlugins, InstallStep.clearCache])
          else (true, t4)

/-! ## Extension installer (runtime path)

MauticDeployer.installThemesAndPlugins always takes the runtime path
(shouldUseCustomImageApproach returns false unconditionally). Each item
of a batch is embedded as a function from the outcomes of its remote
commands to the pair (success, ordered trace of its container-side
steps); a throw caught by the per-item try/catch of
installThemesAndPluginsRuntime is embedded as a `false` result.
-/

/-- Container-side steps of one theme or plugin item. -/
inductive ExtStep where
  | download
  | validateArchive
  | rejectInvalid
  | extract
  | registerPlugin
  | clearCache
deriving DecidableEq, Repr

/-- Outcomes of the remote commands of MauticDeployer.installTheme. The
download and the extraction run as one combined shell command
(`curl ... && unzip ...`), so the extraction is attempted exactly when
the download part succeeded. -/
structure ThemeItemEnv where
  downloadSuccess : Bool
  extractSuccess : Bool
deriving DecidableEq, Repr

/-- MauticDeployer.installTheme: runs the combined download-and-extract
command with ignoreError and never examines its result, then fixes
permissions and clears the cache best-effort. No validation of the
downloaded artifact is performed, and the function reports success for
every outcome (nothing on this path throws). -/
def installTheme (env : ThemeItemEnv) : Bool × List ExtStep :=
  let t := if env.downloadSuccess then [ExtStep.download, ExtStep.extract]
           else [ExtStep.download]
  (true, t ++ [ExtStep.clearCache])

/-- Outcomes of the remote commands of MauticDeployer.installPlugin.
fileCmdSuccess is the exit status of the `file plugin.zip` probe and
fileSaysZip tells whether its output contains `Zip archive data`. -/
structure PluginItemEnv where
  downloadSuccess : Bool
  fileCmdSuccess : Bool
  fileSaysZip : Bool
  extractSuccess : Bool
deriving DecidableEq, Repr

/-- MauticDeployer.installPlugin: download (throw on failure), validate
the artifact with the `file` probe (when the probe itself succeeds and
reports a non-Zip payload, remove the file and throw before any
extraction; when the probe itself fails, only warn and continue),
extract (throw on failure), then register the plugin and clear the
cache best-effort. -/
def installPlugin (env : PluginItemEnv) : Bool × List ExtStep :=
  if !env.downloadSuccess then (false, [ExtStep.download])
  else
    let t := [ExtStep.download, ExtStep.validateArchive]
    if env.fileCmdSuccess && !env.fileSaysZip then
      (false, t ++ [ExtStep.rejectInvalid])
    else
      let t' := t ++ [ExtStep.extract]
      if !env.extractSuccess then (false, t')
      else (true, t' ++ [ExtStep.registerPlugin, ExtStep.clearCache])

/-- Theme loop of MauticDeployer.installThemesAndPluginsRuntime: every
item is attempted; a per-item failure is caught, counted, and the loop
continues. Returns (successCount, failureCount). -/
def runThemeBatch : List ThemeItemEnv → Nat × Nat
  | [] => (0, 0)
  | e :: rest =>
    let counts := runThemeBatch rest
    if (installTheme e).1 then (counts.1 + 1, counts.2)
    else (counts.1, counts.2 + 1)

/-- Plugin loop of MauticDeployer.installThemesAndPluginsRuntime:
every item is attempted; a per-item failure is caught, counted, and the
loop continues. Returns (successCount, failureCount). -/
def runPluginBatch : List PluginItemEnv → Nat × Nat
  | [] => (0, 0)
  | e :: rest =>
    let counts := runPluginBatch rest
    if (installPlugin e).1 then (counts.1 + 1, counts.2)
    else (counts.1, counts.2 + 1)

/-! ## Example inputs used by witnesses and counterexamples -/

/-- A concrete deployment configuration without a domain and without
extensions. -/
def cfgExample : DeploymentConfig :=
  { emailAddress := "admin@example.com"
  , mauticPassword := "secret"
  , ipAddress := "203.0.113.5"
  , port := "8001"
  , mauticVersion := "5.2.1"
  , mauticThemes := none
  , mauticPlugins := none
  , mysqlDatabase := "mautic"
  , mysqlUser := "mautic"
  , mysqlPassword := "dbpass"
  , mysqlRootPassword := "rootpass"
  , domainName := none }

/-- cfgExample with a configured domain name. -/
def cfgWithDomain : DeploymentConfig :=
  { cfgExample with domainName := some "mkt.example.com" }

/-- A shell environment in which every command execution errors. -/
def allErrEnv : ShellEnv := fun _ => CmdOutcome.err

/-! ## Helper lemmas -/

theorem runShellIgnore_err {env : ShellEnv} {cmd : String}
    (h : env cmd = CmdOutcome.err) :
    runShellIgnore env cmd = { success := false, output := "", exitCode := 1 } := by
  simp [runShellIgnore, h]

theorem quorum_eq_majority (a b c d : Bool) :
    decide (3 ≤ ([a, b, c, d].filter (fun x => x)).length) =
      (a && b && c || a && b && d || a && c && d || b && c && d) := by
  cases a <;> cases b <;> cases c <;> cases d <;> rfl

theorem jsEndsWith_append (s t : String) : jsEndsWith (s ++ t) t = true := by
  simp only [jsEndsWith, decide_eq_true_eq, String.data_append]
  exact List.suffix_append s.data t.data

/-! ## Claim theorems -/

/-- Claim C1: the installation detector classifies the target as
installed exactly when at least 3 of the 4 probes pass; the right-hand
side enumerates the C(4,3)+C(4,4) passing combinations as a majority
formula over the four probe outcomes, so every probe environment with
at most 2 passing probes classifies as not installed. -/
theorem isInstalled_iff_three_of_four (env : ShellEnv) :
    isInstalled env =
      (checkDockerCompose env && checkMauticDirectories env && checkDatabase env ||
       checkDockerCompose env && checkMauticDirectories env && checkConfigFiles env ||
       checkDockerCompose env && checkDatabase env && checkConfigFiles env ||
       checkMauticDirectories env && checkDatabase env && checkConfigFiles env) :=
  quorum_eq_majority (checkDockerCompose env) (checkMauticDirectories env)
    (checkDatabase env) (checkConfigFiles env)

/-- Claim C5: needsUpdate is true exactly when the current version is
absent or differs from the configured desired version. -/
theorem needsUpdate_iff (env : ShellEnv) (config : DeploymentConfig) :
    needsUpdate env config = true ↔
      (getCurrentMauticVersion env = none ∨
       getCurrentMauticVersion env ≠ some config.mauticVersion) := by
  unfold needsUpdate
  cases h : getCurrentMauticVersion env with
  | none => simp
  | some currentVersion => simp [bne_iff_ne]

/-- Claim C10: the upgrade pull tag, the compose-rewrite tag and the
environment-file MAUTIC_VERSION agree for every configured version,
equal the version itself when it already ends with -apache and the
version with -apache appended otherwise; the computed tag always ends
with -apache and the normalization is idempotent. -/
theorem versionTag_normalization (version : String) :
    performUpdateBaseVersion version = composeRewriteBaseVersion version ∧
    composeRewriteBaseVersion version = envFileMauticVersion version ∧
    (jsEndsWith version "-apache" = true → performUpdateBaseVersion version = version) ∧
    (jsEndsWith version "-apache" = false →
      performUpdateBaseVersion version = version ++ "-apache") ∧
    jsEndsWith (performUpdateBaseVersion version) "-apache" = true ∧
    performUpdateBaseVersion (performUpdateBaseVersion version) =
      performUpdateBaseVersion version := by
  by_cases h : jsEndsWith version "-apache" = true
  · refine ⟨rfl, rfl, fun _ => ?_, fun hf => ?_, ?_, ?_⟩ <;>
      simp [performUpdateBaseVersion, h] at *
  · have h' : jsEndsWith version "-apache" = false := by
      cases hx : jsEndsWith version "-apache" with
      | false => rfl
      | true => exact absurd hx h
    refine ⟨rfl, rfl, fun ht => absurd ht h, fun _ => ?_, ?_, ?_⟩
    · simp [performUpdateBaseVersion, h']
    · simp [performUpdateBaseVersion, h', jsEndsWith_append]
    · simp [performUpdateBaseVersion, h', jsEndsWith_append]

/-- Witness for C10 at the concrete versions 5.2.1 and 5.2.1-apache. -/
theorem versionTag_normalization_witness :
    performUpdateBaseVersion "5.2.1" = "5.2.1" ++ "-apache" ∧
    performUpdateBaseVersion "5.2.1-apache" = "5.2.1-apache" :=
  ⟨(versionTag_normalization "5.2.1").2.2.2.1 (by decide),
   (versionTag_normalization "5.2.1-apache").2.2.1 (by decide)⟩

/-- Claim C2: when pulling the new image fails, performUpdate reports
failure with a trace consisting of the pull attempt alone, so
recreateContainers (the only step that stops, removes or restarts
containers) is never called. -/
theorem performUpdate_pull_failure_aborts (config : DeploymentConfig) (env : UpdateEnv)
    (h : env.pullSuccess = false) :
    performUpdate config env =
      (false, [UpdateStep.pullImage (performUpdateImageName config)]) ∧
    UpdateStep.recreateContainers ∉ (performUpdate config env).2 := by
  unfold performUpdate
  simp [h]

/-- An upgrade environment whose image pull fails while everything else
would succeed. -/
def updateEnvPullFail : UpdateEnv :=
  { pullSuccess := false, composeRewriteSuccess := true, recreateSuccess := true,
    healthyWeb := true, healthyDb := true }

/-- Witness for C2 at a concrete configuration and environment. -/
theorem performUpdate_pull_failure_aborts_witness :
    performUpdate cfgExample updateEnvPullFail =
      (false, [UpdateStep.pullImage (performUpdateImageName cfgExample)]) ∧
    UpdateStep.recreateContainers ∉ (performUpdate cfgExample updateEnvPullFail).2 :=
  performUpdate_pull_failure_aborts cfgExample updateEnvPullFail rfl

/-- A fresh-install environment in which the containers start but
neither container ever reports healthy within its bounded wait, while
the installer command itself would succeed. -/
def installEnvHealthTimeout : InstallEnv :=
  { envFileWriteSuccess := true, composeTemplatePresent := true, recreateSuccess := true,
    healthyDb := false, healthyWeb := false, installerSuccess := true }

/-- An inspect environment in which mautic_db is perpetually restarting
and unhealthy, so waitForHealthy times out. -/
def dbNeverHealthyInspect : Nat → ProcessResult := fun _ =>
  { success := true, output := "/mautic_db,mysql:8.0,restarting,unhealthy", exitCode := 0 }

/-- Claim C3 (evaluating the code at the failing input): with the
database health wait timing out (waitForHealthy returns false after its
180-second budget), performInstallation nevertheless proceeds to run
the embedded installer and reports overall success, because the source
discards the results of both waitForHealthy calls. -/
theorem performInstallation_runs_installer_after_health_timeout :
    waitForHealthy dbNeverHealthyInspect 180 = false ∧
    installEnvHealthTimeout.healthyDb = false ∧
    performInstallation cfgExample installEnvHealthTimeout =
      (true, [InstallStep.createDataDirectories, InstallStep.createEnvironmentFile,
              InstallStep.createDockerCompose, InstallStep.recreateContainers,
              InstallStep.waitForHealthyDb, InstallStep.waitForHealthyWeb,
              InstallStep.runMauticInstallation, InstallStep.clearCache]) ∧
    InstallStep.runMauticInstallation ∈
      (performInstallation cfgExample installEnvHealthTimeout).2 := by
  refine ⟨by decide, rfl, by decide, by decide⟩

/-- Claim C6 counterexample: with domain mkt.example.com configured,
the installer command uses https://mkt.example.com but the final
connectivity verification of scripts/setup.ts builds
http://mkt.example.com, not the https URL the claim requires for both
sites. -/
theorem setupMain_verification_url_not_https :
    runMauticInstallationSiteUrl cfgWithDomain = "https://mkt.example.com" ∧
    setupMainBaseUrl cfgWithDomain = "http://mkt.example.com" ∧
    setupMainBaseUrl cfgWithDomain ≠ "https://mkt.example.com" := by
  refine ⟨by decide, by decide, by decide⟩

/-- Claim C6 (amended): the installer site URL is https://domain when a
domain is configured and http://host:port otherwise, while the final
connectivity verification uses http://domain when a domain is
configured and http://host:port otherwise; in both the domain takes
precedence over host:port. -/
theorem siteUrl_domain_precedence (config : DeploymentConfig) :
    (jsTruthy config.domainName = true →
      runMauticInstallationSiteUrl config = "https://" ++ config.domainName.getD "" ∧
      setupMainBaseUrl config = "http://" ++ config.domainName.getD "") ∧
    (jsTruthy config.domainName = false →
      runMauticInstallationSiteUrl config =
        "http://" ++ config.ipAddress ++ ":" ++ config.port ∧
      setupMainBaseUrl config = "http://" ++ config.ipAddress ++ ":" ++ config.port) := by
  constructor <;> intro h <;>
    simp [runMauticInstallationSiteUrl, setupMainBaseUrl, h]

/-- Witness for C6 at a configuration with a domain. -/
theorem siteUrl_domain_precedence_witness :
    runMauticInstallationSiteUrl cfgWithDomain =
      "https://" ++ cfgWithDomain.domainName.getD "" ∧
    setupMainBaseUrl cfgWithDomain = "http://" ++ cfgWithDomain.domainName.getD "" :=
  (siteUrl_domain_precedence cfgWithDomain).1 (by decide)

/-- Claim C8: an erroring remote command makes the corresponding probe
return false rather than raise; when every command errors (the target is
fully unreachable) all four probes return false and the detector
classifies the target as not installed. Detection is a total function
of the probe environment by construction. -/
theorem probes_error_to_false (env : ShellEnv) :
    (env checkComposeCmd = CmdOutcome.err → checkDockerCompose env = false) ∧
    (env checkDirsCmd = CmdOutcome.err → checkMauticDirectories env = false) ∧
    (env checkConfigCmd = CmdOutcome.err → checkConfigFiles env = false) ∧
    ((∀ n, env (inspectCmd n) = CmdOutcome.err) →
      listMauticContainers env = [] ∧ checkDatabase env = false) ∧
    ((∀ c, env c = CmdOutcome.err) → isInstalled env = false) := by
  refine ⟨fun h => ?_, fun h => ?_, fun h => ?_, fun h => ?_, fun h => ?_⟩
  · simp [checkDockerCompose, runShellIgnore_err h]
  · simp [checkMauticDirectories, runShellIgnore_err h]
  · simp [checkConfigFiles, runShellIgnore_err h]
  · have hlist : listMauticContainers env = [] := by
      simp [listMauticContainers, getContainerInfoEnv, runShellIgnore_err (h _),
        getContainerInfo]
    exact ⟨hlist, by simp [checkDatabase, hlist]⟩
  · have h1 : checkDockerCompose env = false := by
      simp [checkDockerCompose, runShellIgnore_err (h _)]
    have h2 : checkMauticDirectories env = false := by
      simp [checkMauticDirectories, runShellIgnore_err (h _)]
    have h3 : checkConfigFiles env = false := by
      simp [checkConfigFiles, runShellIgnore_err (h _)]
    have h4 : checkDatabase env = false := by
      simp [checkDatabase, listMauticContainers, getContainerInfoEnv,
        runShellIgnore_err (h _), getContainerInfo]
    simp [isInstalled, h1, h2, h3, h4]

/-- Witness for C8: the fully unreachable environment. -/
theorem probes_error_to_false_witness :
    checkDockerCompose allErrEnv = false ∧
    checkMauticDirectories allErrEnv = false ∧
    checkConfigFiles allErrEnv = false ∧
    checkDatabase allErrEnv = false ∧
    isInstalled allErrEnv = false :=
  ⟨(probes_error_to_false allErrEnv).1 rfl,
   (probes_error_to_false allErrEnv).2.1 rfl,
   (probes_error_to_false allErrEnv).2.2.1 rfl,
   ((probes_error_to_false allErrEnv).2.2.2.1 (fun _ => rfl)).2,
   (probes_error_to_false allErrEnv).2.2.2.2 (fun _ => rfl)⟩

/-- Helper for C9: the theme batch attempts every item. -/
theorem runThemeBatch_total (themes : List ThemeItemEnv) :
    (runThemeBatch themes).1 + (runThemeBatch themes).2 = themes.length := by
  induction themes with
  | nil => rfl
  | cons e rest ih =>
    by_cases h : (installTheme e).1 = true <;>
      simp [runThemeBatch, h] <;> omega

/-- Helper for C9: the plugin batch attempts every item. -/
theorem runPluginBatch_total (plugins : List PluginItemEnv) :
    (runPluginBatch plugins).1 + (runPluginBatch plugins).2 = plugins.length := by
  induction plugins with
  | nil => rfl
  | cons e rest ih =>
    by_cases h : (installPlugin e).1 = true <;>
      simp [runPluginBatch, h] <;> omega

/-- Claim C9 counterexample: a theme item whose downloaded payload is
not a valid archive is not rejected before extraction — installTheme
performs no validation, attempts the extraction directly on the
downloaded artifact, and even reports the item as a success. -/
theorem installTheme_invalid_archive_not_rejected :
    installTheme { downloadSuccess := true, extractSuccess := false } =
      (true, [ExtStep.download, ExtStep.extract, ExtStep.clearCache]) ∧
    ExtStep.extract ∈
      (installTheme { downloadSuccess := true, extractSuccess := false }).2 ∧
    ExtStep.rejectInvalid ∉
      (installTheme { downloadSuccess := true, extractSuccess := false }).2 := by
  refine ⟨by decide, by decide, by decide⟩

/-- Claim C9 (amended): for a plugin item whose downloaded artifact the
file probe identifies as not a Zip archive, the item is rejected before
any extraction step; and in both batches the failure of a single item
does not prevent the remaining items from being attempted, with
aggregate success/failure counts covering every item. -/
theorem extensionBatch_behavior (pe : PluginItemEnv)
    (themes : List ThemeItemEnv) (plugins : List PluginItemEnv) :
    (pe.downloadSuccess = true → pe.fileCmdSuccess = true → pe.fileSaysZip = false →
      installPlugin pe =
        (false, [ExtStep.download, ExtStep.validateArchive, ExtStep.rejectInvalid]) ∧
      ExtStep.extract ∉ (installPlugin pe).2) ∧
    (runThemeBatch themes).1 + (runThemeBatch themes).2 = themes.length ∧
    (runPluginBatch plugins).1 + (runPluginBatch plugins).2 = plugins.length := by
  refine ⟨fun h1 h2 h3 => ?_, runThemeBatch_total themes, runPluginBatch_total plugins⟩
  unfold installPlugin
  simp [h1, h2, h3]

/-- Witness for C9 at concrete batch environments. -/
theorem extensionBatch_behavior_witness :
    installPlugin { downloadSuccess := true, fileCmdSuccess := true,
                    fileSaysZip := false, extractSuccess := true } =
      (false, [ExtStep.download, ExtStep.validateArchive, ExtStep.rejectInvalid]) ∧
    (runPluginBatch [{ downloadSuccess := true, fileCmdSuccess := true,
                       fileSaysZip := false, extractSuccess := true },
                     { downloadSuccess := true, fileCmdSuccess := true,
                       fileSaysZip := true, extractSuccess := true }]).1 +
      (runPluginBatch [{ downloadSuccess := true, fileCmdSuccess := true,
                         fileSaysZip := false, extractSuccess := true },
                       { downloadSuccess := true, fileCmdSuccess := true,
                         fileSaysZip := true, extractSuccess := true }]).2 = 2 :=
  ⟨((extensionBatch_behavior
      { downloadSuccess := true, fileCmdSuccess := true,
        fileSaysZip := false, extractSuccess := true } [] []).1 rfl rfl rfl).1,
   (extensionBatch_behavior
      { downloadSuccess := true, fileCmdSuccess := true,
        fileSaysZip := false, extractSuccess := true } []
      [{ downloadSuccess := true, fileCmdSuccess := true,
         fileSaysZip := false, extractSuccess := true },
       { downloadSuccess := true, fileCmdSuccess := true,
         fileSaysZip := true, extractSuccess := true }]).2.2⟩

/-! ## Health-wait loop characterization (claim C4) -/

theorem waitForHealthyAux_zero (f : Nat → ProcessResult) (k : Nat) :
    waitForHealthyAux f k 0 = false := rfl

theorem waitForHealthyAux_succ (f : Nat → ProcessResult) (k n : Nat) :
    waitForHealthyAux f k (n + 1) =
      (if healthyObservation (f k) then true else waitForHealthyAux f (k + 1) n) := rfl

theorem waitForHealthyAux_true_iff (f : Nat → ProcessResult) :
    ∀ n k, waitForHealthyAux f k n = true ↔
      ∃ j, j < n ∧ healthyObservation (f (k + j)) = true := by
  intro n
  induction n with
  | zero =>
    intro k
    rw [waitForHealthyAux_zero]
    constructor
    · intro hx; exact absurd hx (by decide)
    · rintro ⟨j, hj, _⟩; exact absurd hj (by omega)
  | succ n ih =>
    intro k
    rw [waitForHealthyAux_succ]
    by_cases h : healthyObservation (f k) = true
    · rw [if_pos h]
      exact iff_of_true rfl ⟨0, Nat.succ_pos n, by simpa using h⟩
    · rw [if_neg h, ih (k + 1)]
      constructor
      · rintro ⟨j, hj, hp⟩
        refine ⟨j + 1, by omega, ?_⟩
        have e : k + (j + 1) = k + 1 + j := by omega
        rw [e]; exact hp
      · rintro ⟨j, hj, hp⟩
        cases j with
        | zero =>
          rw [Nat.add_zero] at hp
          exact absurd hp h
        | succ j =>
          refine ⟨j, by omega, ?_⟩
          have e : k + 1 + j = k + (j + 1) := by omega
          rw [e]; exact hp

theorem getContainerInfo_health_not_empty {r : ProcessResult} {info : ContainerInfo}
    (h : getContainerInfo r = some info) : info.health ≠ some "" := by
  unfold getContainerInfo at h
  by_cases hc : (!r.success || r.output == "not_found") = true
  · rw [if_pos hc] at h; exact absurd h (by simp)
  · rw [if_neg hc] at h
    dsimp only [] at h
    set x := (jsSplit ',' r.output).getD 3 "" with hxdef
    by_cases hh : (x == "" || x == "<no value>") = true
    · rw [if_pos hh] at h
      injection h with h'
      rw [← h']
      simp
    · rw [if_neg hh] at h
      injection h with h'
      rw [← h']
      intro he
      have he2 : (some x : Option String) = some "" := he
      injection he2 with he3
      rw [he3] at hh
      exact hh (by decide)

theorem containerIsHealthyNow_iff {info : ContainerInfo}
    (hne : info.health ≠ some "") :
    containerIsHealthyNow info = true ↔
      (info.status = "running" ∧
       (info.health = none ∨ info.health = some "healthy")) := by
  unfold containerIsHealthyNow jsTruthy
  cases h : info.health with
  | none => simp [h]
  | some s =>
    have hs : s ≠ "" := fun e => hne (by rw [h, e])
    simp [h, hs]

theorem healthyObservation_iff (r : ProcessResult) :
    healthyObservation r = true ↔
      ∃ info, getContainerInfo r = some info ∧ info.status = "running" ∧
        (info.health = none ∨ info.health = some "healthy") := by
  unfold healthyObservation
  cases h : getContainerInfo r with
  | none =>
    constructor
    · intro hx; exact absurd hx (by decide)
    · rintro ⟨i, hi, _, _⟩; exact absurd hi (by simp)
  | some info =>
    have hstep : (match some info with
        | some i => containerIsHealthyNow i
        | none => false) = containerIsHealthyNow info := rfl
    rw [hstep, containerIsHealthyNow_iff (getContainerInfo_health_not_empty h)]
    constructor
    · rintro ⟨h1, h2⟩; exact ⟨info, rfl, h1, h2⟩
    · rintro ⟨i, hi, h1, h2⟩
      injection hi with hi'
      rw [← hi'] at h1 h2
      exact ⟨h1, h2⟩

/-- Claim C4: waitForHealthy returns true exactly when some poll within
the budget of one poll per 15-second interval observes the container
running with no defined health check or with health verdict healthy;
otherwise (no such observation within the budget, including a zero
budget) it returns false after the timeout. The embedding is a total
function, so no environment makes it raise. -/
theorem waitForHealthy_true_iff (inspectAt : Nat → ProcessResult) (timeoutSeconds : Nat) :
    waitForHealthy inspectAt timeoutSeconds = true ↔
      ∃ k, k < pollCount timeoutSeconds ∧ ∃ info,
        getContainerInfo (inspectAt k) = some info ∧
        info.status = "running" ∧
        (info.health = none ∨ info.health = some "healthy") := by
  unfold waitForHealthy
  rw [waitForHealthyAux_true_iff inspectAt (pollCount timeoutSeconds) 0]
  simp only [Nat.zero_add, healthyObservation_iff]

/-! ## Image-tag extraction characterization (claim C7) -/

/-- Characters after the first occurrence of `sep`, or none when `sep`
does not occur. -/
def dropThroughFirst (sep : Char) : List Char → Option (List Char)
  | [] => none
  | c :: cs => if c = sep then some cs else dropThroughFirst sep cs

/-- Independent description of what getCurrentMauticVersion extracts
from an image reference: the portion between the first colon and the
following colon (or the end of the string), with an absent or empty
portion mapped to none. -/
def secondColonSegment (image : String) : Option String :=
  match dropThroughFirst ':' image.data with
  | none => none
  | some rest =>
    let seg := rest.takeWhile (fun c => c != ':')
    if seg.isEmpty then none else some (String.mk seg)

/-- Follows the wording of the spec for comparison with the code: the
substring of the image reference after the last colon separator. -/
def specTagAfterLastColon (image : String) : String :=
  (jsSplit ':' image).getLastD ""

theorem splitCore_fst (sep : Char) (l : List Char) :
    (splitCore sep l).1 = l.takeWhile (fun c => c != sep) := by
  induction l with
  | nil => rfl
  | cons c cs ih =>
    by_cases h : c = sep
    · simp [splitCore, h, List.takeWhile_cons]
    · simp [splitCore, h, List.takeWhile_cons, bne_iff_ne, ih]

theorem splitCore_snd_head (sep : Char) (l : List Char) :
    (splitCore sep l).2.headD [] =
      (match dropThroughFirst sep l with
       | none => []
       | some rest => rest.takeWhile (fun c => c != sep)) := by
  induction l with
  | nil => rfl
  | cons c cs ih =>
    by_cases h : c = sep
    · simp [splitCore, dropThroughFirst, h, splitCore_fst]
    · simp only [splitCore, dropThroughFirst, if_neg h]
      simpa using ih

theorem jsSplit_getD_one (sep : Char) (s : String) :
    (jsSplit sep s).getD 1 "" = String.mk ((splitCore sep s.data).2.headD []) := by
  unfold jsSplit
  cases h : (splitCore sep s.data).2 with
  | nil => simp [h]
  | cons a t => simp [h]

theorem string_mk_beq_empty (l : List Char) : (String.mk l == "") = l.isEmpty := by
  cases l with
  | nil => rfl
  | cons c cs => rfl

theorem extractImageTag_eq_secondColonSegment (image : String) :
    extractImageTag image = secondColonSegment image := by
  unfold extractImageTag secondColonSegment
  rw [jsSplit_getD_one, splitCore_snd_head]
  cases h : dropThroughFirst ':' image.data with
  | none => rfl
  | some rest =>
    dsimp only []
    rw [string_mk_beq_empty]

/-- Claim C7 (amended): getCurrentMauticVersion returns the portion of
the web container image reference between the first colon and the next
colon or the end of the string, and returns none exactly when the
container does not exist or that portion is absent or empty. -/
theorem getCurrentMauticVersionOf_second_segment (webContainer : Option ContainerInfo) :
    getCurrentMauticVersionOf webContainer =
      webContainer.bind (fun c => secondColonSegment c.image) := by
  cases webContainer with
  | none => rfl
  | some c =>
    show extractImageTag c.image = secondColonSegment c.image
    exact extractImageTag_eq_secondColonSegment c.image

/-- Claim C7 counterexample: for an existing web container whose image
reference carries a registry port, the code returns the portion between
the first and second colon (5000/mautic/mautic), not the substring
after the last colon (5.2.1-apache) required by the claim; and for an
existing container whose image reference has no colon at all the code
returns none although the container exists. -/
theorem getCurrentMauticVersion_not_after_last_colon :
    getCurrentMauticVersionOf (some
      { name := "mautic_web",
        image := "registry.example.com:5000/mautic/mautic:5.2.1-apache",
        status := "running", health := none }) = some "5000/mautic/mautic" ∧
    specTagAfterLastColon "registry.example.com:5000/mautic/mautic:5.2.1-apache" =
      "5.2.1-apache" ∧
    ("5000/mautic/mautic" : String) ≠ "5.2.1-apache" ∧
    getCurrentMauticVersionOf (some
      { name := "mautic_web", image := "mautic-custom",
        status := "running", health := none }) = none := by
  refine ⟨by decide, by decide, by decide, by decide⟩

end MauticDeploy
